import Mathlib

/-!
Shallow embedding of the membership-lifecycle and payment-reconciliation
engine of the Blue Feathers gym backend.

Sources embedded:
* the PayHere payment controller (`initiatePayment`, `paymentNotify`,
  `manualCompletePayment`, `generatePayHereHash`);
* the Payment model instance methods (`markAsSuccess`, `markAsFailed`,
  `markAsCancelled`, `processRefund`);
* the membership service sweeps (`expireMemberships`,
  `handleGracePeriodExpiry`) invoked by the cron scheduler;
* the `MembershipPackage`, `User` and `Payment` schemas.

Modelling conventions:
* Mongo documents become Lean structures; object ids become `Nat` keys.
* `Date` values are `Int` epoch milliseconds.  `Date.now()` and the
  timezone-dependent `setHours(0,0,0,0)` start-of-day are parameters
  (`now`, `today`); `setMonth (+n)` is the abstract calendar parameter
  `addMonths`; `setDate (+5)` is five 86400000 ms days.
* MD5 is the external crypto collaborator; it is a `String → String`
  parameter, applied exactly as the controller applies it.
* Awaited promises that can reject are modelled by `Bool` parameters
  saying whether the awaited send succeeds; a rejection that the source
  does not catch locally propagates to the route handler's `catch`,
  which answers HTTP 500.
* Monetary amounts are exact rationals; `toFixed2` embeds
  `parseFloat(x).toFixed(2)` for the nonnegative amounts that occur.
-/

namespace Back

/-- `User.membershipStatus`: enum from the User schema. -/
inductive MemStatus
  | inactive
  | active
  | gracePeriod
  | expired
deriving DecidableEq

/-- `Payment.status`: enum from the Payment schema. -/
inductive PayStatus
  | pending
  | success
  | failed
  | cancelled
  | refunded
deriving DecidableEq

/-- A `MembershipPackage` document (schema in the package model file). -/
structure MembershipPackage where
  pid : Nat
  name : String
  price : ℚ
  durationMonths : Nat
  /-- optional in the schema, defaults to 0, bounded 0..100 -/
  discount : ℚ
  /-- optional in the schema; `none` means the field is unset -/
  maxMembers : Option Nat
  currentMembers : Int
  isActive : Bool
  category : String
deriving DecidableEq

/-- The membership-relevant part of a `User` document. -/
structure UserRec where
  uid : Nat
  name : String
  email : String
  membershipStatus : MemStatus
  membershipPackage : Option Nat
  membershipPlan : Option String
  membershipStartDate : Option Int
  membershipEndDate : Option Int
  gracePeriodEndDate : Option Int
  lastPaymentDate : Option Int
  paymentHistory : List Nat
  /-- `notificationPreferences.email` -/
  prefEmail : Bool
  /-- `notificationPreferences.inApp` -/
  prefInApp : Bool
deriving DecidableEq

/-- A `Payment` document. -/
structure PaymentRec where
  payId : Nat
  user : Nat
  package : Nat
  orderId : String
  amount : ℚ
  currency : String
  status : PayStatus
  payHerePaymentId : Option String
  payHereStatusCode : Option String
  payHereCardHolderName : Option String
  payHereCardNo : Option String
  statusMessage : Option String
  membershipStartDate : Option Int
  membershipEndDate : Option Int
  refundAmount : Option ℚ
  refundReason : Option String
  refundedAt : Option Int
  createdAt : Int
deriving DecidableEq

/-- A `Notification` document (the fields the claims mention). -/
structure NotificationRec where
  user : Nat
  title : String
  ntype : String
  priority : String
deriving DecidableEq

/-- The three persisted collections plus the notification trail. -/
structure DB where
  packages : List MembershipPackage
  users : List UserRec
  payments : List PaymentRec
  notifications : List NotificationRec
deriving DecidableEq

/-- `MembershipPackage.findById`. -/
def findPackage (db : DB) (pid : Nat) : Option MembershipPackage :=
  db.packages.find? (fun p => p.pid == pid)

/-- `User.findById`. -/
def findUser (db : DB) (uid : Nat) : Option UserRec :=
  db.users.find? (fun u => u.uid == uid)

/-- `Payment.findOne({ orderId })`. -/
def findPaymentByOrder (db : DB) (oid : String) : Option PaymentRec :=
  db.payments.find? (fun p => p.orderId == oid)

/-- `package_.save()`: write back a package document keyed by its id. -/
def updatePackage (db : DB) (p : MembershipPackage) : DB :=
  { db with packages := db.packages.map (fun q => if q.pid == p.pid then p else q) }

/-- `user.save()`: write back a user document keyed by its id. -/
def updateUser (db : DB) (u : UserRec) : DB :=
  { db with users := db.users.map (fun v => if v.uid == u.uid then u else v) }

/-- `payment.save()`: write back a payment document keyed by its id. -/
def updatePayment (db : DB) (p : PaymentRec) : DB :=
  { db with payments := db.payments.map (fun q => if q.payId == p.payId then p else q) }

/-- Append one notification (`Notification.create`). -/
def addNotification (db : DB) (n : NotificationRec) : DB :=
  { db with notifications := db.notifications ++ [n] }

/-- JavaScript `x || d` on an optional string (`undefined` and `""` are falsy). -/
def jsOr (s : Option String) (d : String) : String :=
  match s with
  | some t => if t = "" then d else t
  | none => d

/-- JavaScript truthiness of the optional numeric `maxMembers` field:
`undefined` and `0` are both falsy. -/
def jsTruthyOptNat (x : Option Nat) : Bool :=
  match x with
  | none => false
  | some n => n != 0

/-- One day in epoch milliseconds. -/
def dayMs : Int := 86400000

/-- Thirty minutes in epoch milliseconds. -/
def thirtyMinMs : Int := 1800000

/-- Two-digit rendering of the fractional cents. -/
def twoDigits (n : Nat) : String :=
  if n < 10 then "0" ++ toString n else toString n

/-- `parseFloat(x).toFixed(2)` on the nonnegative amounts the controller
formats: round to the nearest hundredth (half up) and print two decimals. -/
def toFixed2 (q : ℚ) : String :=
  let n : Nat := (round (q * 100) : Int).toNat
  toString (n / 100) ++ "." ++ twoDigits (n % 100)

/-- `.toUpperCase()` on a digest: character-wise ASCII uppercasing, written
as a map over the character list (evaluates under `decide`, unlike the
well-founded-recursive `String.toUpper`, and agrees with it on every
string). -/
def upperAscii (s : String) : String := ⟨s.data.map Char.toUpper⟩

/-- The gateway data handed to `markAsSuccess` / `markAsFailed`. -/
structure PayHereData where
  paymentId : String
  statusCode : String
  cardHolderName : String
  cardNo : String
  statusMessage : Option String
deriving DecidableEq

/-- `paymentSchema.methods.markAsSuccess`. -/
def PaymentRec.markAsSuccess (p : PaymentRec) (d : PayHereData) : PaymentRec :=
  { p with
    status := PayStatus.success
    payHerePaymentId := some d.paymentId
    payHereStatusCode := some d.statusCode
    payHereCardHolderName := some d.cardHolderName
    payHereCardNo := some d.cardNo
    statusMessage := some (jsOr d.statusMessage "Payment successful") }

/-- `paymentSchema.methods.markAsFailed` (always called with gateway data). -/
def PaymentRec.markAsFailed (p : PaymentRec) (reason : String) (statusCode : String) :
    PaymentRec :=
  { p with
    status := PayStatus.failed
    statusMessage := some reason
    payHereStatusCode := some statusCode }

/-- `paymentSchema.methods.markAsCancelled`. -/
def PaymentRec.markAsCancelled (p : PaymentRec) : PaymentRec :=
  { p with
    status := PayStatus.cancelled
    statusMessage := some "Payment cancelled by user" }

/-- `paymentSchema.methods.processRefund`. -/
def PaymentRec.processRefund (p : PaymentRec) (amount : ℚ) (reason : String)
    (now : Int) : PaymentRec :=
  { p with
    status := PayStatus.refunded
    refundAmount := some amount
    refundReason := some reason
    refundedAt := some now }

/-- `generatePayHereHash`: the two-stage MD5 used at initiation (no status
code).  The shared secret is hashed first and uppercased, then the
concatenation including that hashed secret is hashed and uppercased. -/
def generatePayHereHash (md5 : String → String) (merchantId orderId : String)
    (amount : ℚ) (currency merchantSecret : String) : String :=
  let hashedSecret := upperAscii (md5 merchantSecret)
  upperAscii (md5 (merchantId ++ orderId ++ toFixed2 amount ++ currency ++ hashedSecret))

/-- The local hash `paymentNotify` recomputes from the webhook payload's own
fields; identical scheme with the status code inserted before the hashed
secret. -/
def notifyLocalHash (md5 : String → String) (merchantId orderId : String)
    (amount : ℚ) (currency statusCode merchantSecret : String) : String :=
  let hashedSecret := upperAscii (md5 merchantSecret)
  upperAscii (md5 (merchantId ++ orderId ++ toFixed2 amount ++ currency ++ statusCode ++
    hashedSecret))

/-- `amount = discount && discount > 0 ? price - price*discount/100 : price`. -/
def calculateAmount (price discount : ℚ) : ℚ :=
  if 0 < discount then price - price * discount / 100 else price

/-- `ORDER_<epoch-ms>_<userId>`. -/
def mkOrderId (now : Int) (uid : Nat) : String :=
  "ORDER_" ++ toString now ++ "_" ++ toString uid

/-- Outcome of `initiatePayment`, mirroring its HTTP responses.  The `ok`
case carries the created payment row, the form amount string and the hash
from the returned `paymentData`. -/
inductive InitResult
  | packageNotFound
  | packageUnavailable
  | capacityReached
  | userNotFound
  | activeMembership
  | pendingPayment (orderId : String)
  | ok (payment : PaymentRec) (formAmount : String) (hash : String)
deriving DecidableEq

/-- `initiatePayment` (payment controller).  `reqUserId` is the
authenticated requester; `newPayId` is the id Mongo assigns to the created
document. -/
def initiatePayment (now : Int) (md5 : String → String)
    (merchantId merchantSecret : String) (reqUserId packageId newPayId : Nat)
    (db : DB) : InitResult × DB :=
  match findPackage db packageId with
  | none => (InitResult.packageNotFound, db)
  | some pkg =>
    if !pkg.isActive then (InitResult.packageUnavailable, db)
    else if jsTruthyOptNat pkg.maxMembers ∧
        (pkg.maxMembers.getD 0 : Int) ≤ pkg.currentMembers then
      (InitResult.capacityReached, db)
    else
      match findUser db reqUserId with
      | none => (InitResult.userNotFound, db)
      | some user =>
        let activeBlock : Bool :=
          match user.membershipStatus, user.membershipEndDate with
          | MemStatus.active, some e => decide (now < e)
          | _, _ => false
        if activeBlock then (InitResult.activeMembership, db)
        else
          match db.payments.find? (fun p => p.user == user.uid &&
              p.status == PayStatus.pending &&
              decide (now - thirtyMinMs ≤ p.createdAt)) with
          | some pending => (InitResult.pendingPayment pending.orderId, db)
          | none =>
            let orderId := mkOrderId now user.uid
            let amount := calculateAmount pkg.price pkg.discount
            let hash := generatePayHereHash md5 merchantId orderId amount "LKR"
              merchantSecret
            let payment : PaymentRec :=
              { payId := newPayId
                user := user.uid
                package := pkg.pid
                orderId := orderId
                amount := amount
                currency := "LKR"
                status := PayStatus.pending
                payHerePaymentId := none
                payHereStatusCode := none
                payHereCardHolderName := none
                payHereCardNo := none
                statusMessage := none
                membershipStartDate := none
                membershipEndDate := none
                refundAmount := none
                refundReason := none
                refundedAt := none
                createdAt := now }
            (InitResult.ok payment (toFixed2 amount) hash,
              { db with payments := db.payments ++ [payment] })

/-- The gateway callback body `paymentNotify` destructures (`custom_1` and
`custom_2` carry the user id and package id chosen at initiation). -/
structure WebhookPayload where
  merchantId : String
  orderId : String
  payhereAmount : ℚ
  payhereCurrency : String
  statusCode : String
  md5sig : String
  paymentId : String
  cardHolderName : String
  cardNo : String
  statusMessage : Option String
  custom1 : Nat
  custom2 : Nat
deriving DecidableEq

/-- The HTTP answer `paymentNotify` sends to the gateway. -/
inductive NotifyResult
  /-- 400 "Invalid hash" -/
  | invalidHash
  /-- 404 "Payment not found" -/
  | paymentNotFound
  /-- 200 "OK" -/
  | ok
  /-- 500 "Error processing payment notification" (the handler's outer catch) -/
  | serverError
deriving DecidableEq

/-- The user-activation block of the success branch: set package, plan,
status active, start `= now`, end `= now + durationMonths months`, grace
end `= end + 5 days`, last payment `= now`, and push the payment id onto
`paymentHistory`.  Shared verbatim by `paymentNotify` and
`manualCompletePayment` in the source. -/
def activateUser (u : UserRec) (pkg : MembershipPackage) (payId : Nat)
    (now : Int) (addMonths : Int → Nat → Int) : UserRec :=
  let endDate := addMonths now pkg.durationMonths
  { u with
    membershipPackage := some pkg.pid
    membershipPlan := some pkg.category
    membershipStatus := MemStatus.active
    membershipStartDate := some now
    membershipEndDate := some endDate
    gracePeriodEndDate := some (endDate + 5 * dayMs)
    lastPaymentDate := some now
    paymentHistory := u.paymentHistory ++ [payId] }

/-- `paymentNotify`, the PayHere webhook handler.  `activationEmailOk`
says whether the awaited `sendMembershipActivationEmail` promise resolves:
the source awaits it with no local try/catch, so a rejection reaches the
handler's outer catch (HTTP 500) after the database writes already went
through, and skips the success notification.  `receiptOk` says whether the
awaited receipt generation/mail resolves; the source wraps that block in
its own try/catch and only logs a failure, so it affects neither the state
nor the response. -/
def paymentNotify (md5 : String → String) (merchantSecret : String)
    (now : Int) (addMonths : Int → Nat → Int)
    (activationEmailOk receiptOk : Bool)
    (w : WebhookPayload) (db : DB) : NotifyResult × DB :=
  let localHash := notifyLocalHash md5 w.merchantId w.orderId w.payhereAmount
    w.payhereCurrency w.statusCode merchantSecret
  if localHash ≠ w.md5sig then (NotifyResult.invalidHash, db)
  else
    match findPaymentByOrder db w.orderId with
    | none => (NotifyResult.paymentNotFound, db)
    | some payment =>
      if w.statusCode = "2" then
        -- Success: no check that the payment is already success.
        let payment1 := payment.markAsSuccess
          ⟨w.paymentId, w.statusCode, w.cardHolderName, w.cardNo, w.statusMessage⟩
        let db1 := updatePayment db payment1
        match findUser db1 w.custom1, findPackage db1 w.custom2 with
        | some user, some pkg =>
          let user1 := activateUser user pkg payment1.payId now addMonths
          let db2 := updateUser db1 user1
          let payment2 := { payment1 with
            membershipStartDate := user1.membershipStartDate
            membershipEndDate := user1.membershipEndDate }
          let db3 := updatePayment db2 payment2
          let db4 := updatePackage db3
            { pkg with currentMembers := pkg.currentMembers + 1 }
          if !activationEmailOk then (NotifyResult.serverError, db4)
          else
            let _ := receiptOk
            (NotifyResult.ok, addNotification db4
              ⟨user.uid, "Payment Successful!", "payment_success", "high"⟩)
        | _, _ => (NotifyResult.ok, db1)
      else if w.statusCode = "0" then
        (NotifyResult.ok, updatePayment db
          { payment with statusMessage := some (jsOr w.statusMessage "Payment pending") })
      else if w.statusCode = "-1" then
        (NotifyResult.ok, updatePayment db payment.markAsCancelled)
      else if w.statusCode = "-2" then
        let db1 := updatePayment db
          (payment.markAsFailed (jsOr w.statusMessage "Payment failed") w.statusCode)
        (NotifyResult.ok, addNotification db1
          ⟨w.custom1, "Payment Failed", "payment_failed", "high"⟩)
      else if w.statusCode = "-3" then
        let db1 := updatePayment db
          (payment.processRefund w.payhereAmount "Chargeback" now)
        let db2 :=
          match findUser db1 w.custom1 with
          | some user =>
            if user.membershipStatus = MemStatus.active then
              let db2a := updateUser db1 { user with membershipStatus := MemStatus.expired }
              match findPackage db2a w.custom2 with
              | some pkg =>
                if 0 < pkg.currentMembers then
                  updatePackage db2a { pkg with currentMembers := pkg.currentMembers - 1 }
                else db2a
              | none => db2a
            else db1
          | none => db1
        (NotifyResult.ok, addNotification db2
          ⟨w.custom1, "Payment Refunded", "payment_failed", "high"⟩)
      else (NotifyResult.ok, db)

/-- Outcome of `manualCompletePayment`, mirroring its HTTP responses. -/
inductive ManualResult
  | paymentNotFound
  | notAuthorized
  | alreadyCompleted
  | userOrPackageNotFound
  | completed
deriving DecidableEq

/-- `manualCompletePayment`: the authenticated owner of a non-success
payment can mark it success and activate their membership without any
gateway signature, capacity or existing-membership check.  The activation
email here is awaited inside a try/catch, so its outcome affects nothing
modelled. -/
def manualCompletePayment (now : Int) (addMonths : Int → Nat → Int)
    (reqUserId : Nat) (orderId : String) (db : DB) : ManualResult × DB :=
  match findPaymentByOrder db orderId with
  | none => (ManualResult.paymentNotFound, db)
  | some payment =>
    if payment.user ≠ reqUserId then (ManualResult.notAuthorized, db)
    else if payment.status = PayStatus.success then (ManualResult.alreadyCompleted, db)
    else
      let payment1 := payment.markAsSuccess
        ⟨"TEST_" ++ toString now, "2", "Test User", "xxxx-xxxx-xxxx-1234",
          some "Manual completion for testing"⟩
      let db1 := updatePayment db payment1
      match findUser db1 payment.user, findPackage db1 payment.package with
      | some user, some pkg =>
        let user1 := activateUser user pkg payment1.payId now addMonths
        let db2 := updateUser db1 user1
        let payment2 := { payment1 with
          membershipStartDate := user1.membershipStartDate
          membershipEndDate := user1.membershipEndDate }
        let db3 := updatePayment db2 payment2
        let db4 := updatePackage db3
          { pkg with currentMembers := pkg.currentMembers + 1 }
        (ManualResult.completed, addNotification db4
          ⟨user.uid, "Payment Successful!", "payment_success", "high"⟩)
      | _, _ => (ManualResult.userOrPackageNotFound, db1)

/-! ## Lifecycle sweeper (membership service invoked by the cron scheduler)

Each per-user loop body sits in its own try/catch in the source, so an
email rejection for one user only skips that user's remaining side
effects; `emailFails uid` says whether the awaited send for that user
rejects. -/

/-- The `expireMemberships` query predicate: active users whose
`membershipEndDate` is strictly before the start of today (a missing date
matches nothing). -/
def expiredMatch (today : Int) (u : UserRec) : Bool :=
  u.membershipStatus == MemStatus.active &&
    match u.membershipEndDate with
    | some d => decide (d < today)
    | none => false

/-- One iteration of the `expireMemberships` loop: set the status to
`grace_period` and save; then the expiry email (whose rejection skips the
rest of this user's body) and, if opted in, the in-app notification. -/
def expireOne (emailFails : Nat → Bool) (db : DB) (uid : Nat) : DB :=
  match findUser db uid with
  | none => db
  | some u =>
    let db1 := updateUser db { u with membershipStatus := MemStatus.gracePeriod }
    if u.prefEmail ∧ emailFails u.uid then db1
    else if u.prefInApp then
      addNotification db1 ⟨u.uid, "Membership Expired", "membership_expiry", "high"⟩
    else db1

/-- `MembershipService.expireMemberships` (09:00 cron pass). -/
def expireMemberships (emailFails : Nat → Bool) (today : Int) (db : DB) : DB :=
  (((db.users.filter (expiredMatch today)).map UserRec.uid).foldl
    (expireOne emailFails) db)

/-- First `handleGracePeriodExpiry` query: grace-period users whose
`gracePeriodEndDate` falls within [today, tomorrow). -/
def graceReminderMatch (today : Int) (u : UserRec) : Bool :=
  u.membershipStatus == MemStatus.gracePeriod &&
    match u.gracePeriodEndDate with
    | some d => decide (today ≤ d) && decide (d < today + dayMs)
    | none => false

/-- One iteration of the grace-period reminder loop: email (rejection
skips the rest), then the in-app notification if opted in.  No state
change beyond the notification trail. -/
def remindOne (emailFails : Nat → Bool) (db : DB) (uid : Nat) : DB :=
  match findUser db uid with
  | none => db
  | some u =>
    if u.prefEmail ∧ emailFails u.uid then db
    else if u.prefInApp then
      addNotification db
        ⟨u.uid, "Final Reminder: Grace Period Ending", "membership_expiry", "high"⟩
    else db

/-- Second `handleGracePeriodExpiry` query: grace-period users whose
`gracePeriodEndDate` is strictly before the start of today. -/
def suspendMatch (today : Int) (u : UserRec) : Bool :=
  u.membershipStatus == MemStatus.gracePeriod &&
    match u.gracePeriodEndDate with
    | some d => decide (d < today)
    | none => false

/-- One iteration of the suspension loop: set the status to `expired` and
save; decrement the populated package's member count floored at 0
(`Math.max(0, currentMembers - 1)`); then the in-app notification if
opted in.  No email is sent on this pass. -/
def suspendOne (db : DB) (uid : Nat) : DB :=
  match findUser db uid with
  | none => db
  | some u =>
    let db1 := updateUser db { u with membershipStatus := MemStatus.expired }
    let db2 :=
      match u.membershipPackage.bind (findPackage db1) with
      | some pkg =>
        updatePackage db1 { pkg with currentMembers := max 0 (pkg.currentMembers - 1) }
      | none => db1
    if u.prefInApp then
      addNotification db2 ⟨u.uid, "Account Suspended", "membership_expiry", "high"⟩
    else db2

/-- `MembershipService.handleGracePeriodExpiry` (08:00 cron pass): the
final-warning loop over users whose grace period ends within a day,
followed by the suspension loop over users whose grace period has
ended. -/
def handleGracePeriodExpiry (emailFails : Nat → Bool) (today : Int) (db : DB) : DB :=
  let db1 := ((db.users.filter (graceReminderMatch today)).map UserRec.uid).foldl
    (remindOne emailFails) db
  ((db1.users.filter (suspendMatch today)).map UserRec.uid).foldl suspendOne db1

/-- Count of suspension notifications on record for one user. -/
def suspNotifCount (db : DB) (uid : Nat) : Nat :=
  (db.notifications.filter
    (fun n => n.user == uid && n.title == "Account Suspended")).length

/-- Every package on record has a nonnegative member count. -/
def packagesNonneg (db : DB) : Prop :=
  ∀ p ∈ db.packages, 0 ≤ p.currentMembers

/-! ## Concrete states used to evaluate the operations

`md5c` is a stand-in for the external MD5 collaborator (any function of the
right type exercises the control flow, since the handler only compares the
digest against the payload signature); `amc` is a 30-day-month calendar. -/

def md5c : String → String := fun _ => ""

def amc : Int → Nat → Int := fun d m => d + (m : Int) * 30 * dayMs

def ef0 : Nat → Bool := fun _ => false

def pkgA : MembershipPackage :=
  { pid := 1, name := "Gold", price := 9000, durationMonths := 1, discount := 11,
    maxMembers := some 10, currentMembers := 0, isActive := true, category := "premium" }

def userA : UserRec :=
  { uid := 1, name := "A", email := "a@x", membershipStatus := MemStatus.inactive,
    membershipPackage := none, membershipPlan := none, membershipStartDate := none,
    membershipEndDate := none, gracePeriodEndDate := none, lastPaymentDate := none,
    paymentHistory := [], prefEmail := true, prefInApp := true }

def payA : PaymentRec :=
  { payId := 5, user := 1, package := 1, orderId := "O1", amount := 8010,
    currency := "LKR", status := PayStatus.pending, payHerePaymentId := none,
    payHereStatusCode := none, payHereCardHolderName := none, payHereCardNo := none,
    statusMessage := none, membershipStartDate := none, membershipEndDate := none,
    refundAmount := none, refundReason := none, refundedAt := none, createdAt := 0 }

def db0 : DB :=
  { packages := [pkgA], users := [userA], payments := [payA], notifications := [] }

/-- A success webhook for `payA` whose signature matches the recomputed
hash (with `md5c` every digest is the empty string, uppercased to itself). -/
def w2 : WebhookPayload :=
  { merchantId := "M", orderId := "O1", payhereAmount := 8010, payhereCurrency := "LKR",
    statusCode := "2", md5sig := "", paymentId := "P1", cardHolderName := "CH",
    cardNo := "1234", statusMessage := none, custom1 := 1, custom2 := 1 }

/-- Same payload with a `custom_1` user id that matches no user. -/
def w2m : WebhookPayload := { w2 with custom1 := 99 }

/-- Same payload with a signature that does not match the recomputed hash. -/
def w2bad : WebhookPayload := { w2 with md5sig := "AAAA" }

/-- A package whose `maxMembers` is 0 with 0 current members. -/
def pkg0 : MembershipPackage := { pkgA with maxMembers := some 0, currentMembers := 0 }

def db5 : DB := { db0 with packages := [pkg0], payments := [] }

/-- A capacity-limited package that is full. -/
def pkg5w : MembershipPackage := { pkgA with maxMembers := some 1, currentMembers := 1 }

def db5w : DB := { db0 with packages := [pkg5w], payments := [] }

/-- A grace-period user past the grace deadline who opted out of in-app
notifications, on a package whose member count is already 0. -/
def user6 : UserRec :=
  { userA with
    membershipStatus := MemStatus.gracePeriod
    gracePeriodEndDate := some (-1)
    prefInApp := false
    membershipPackage := some 1 }

def pkg6 : MembershipPackage := { pkgA with currentMembers := 0 }

def db6 : DB :=
  { packages := [pkg6], users := [user6], payments := [], notifications := [] }

/-- A grace-period user past the grace deadline with in-app notifications
on, on a package with 5 current members. -/
def user6b : UserRec := { user6 with prefInApp := true }

def pkg6b : MembershipPackage := { pkgA with currentMembers := 5 }

def db6b : DB :=
  { packages := [pkg6b], users := [user6b], payments := [], notifications := [] }

/-- An active user whose membership end date is in the past. -/
def user7 : UserRec :=
  { userA with
    membershipStatus := MemStatus.active
    membershipEndDate := some (-1) }

def db7 : DB :=
  { packages := [pkgA], users := [user7], payments := [], notifications := [] }

/-- A pending payment owned by an already-active user on a full package. -/
def user10 : UserRec :=
  { userA with
    membershipStatus := MemStatus.active
    membershipEndDate := some 99999 }

def pkg10 : MembershipPackage := { pkgA with maxMembers := some 1, currentMembers := 1 }

def pay10 : PaymentRec := { payA with orderId := "O10" }

def db10 : DB :=
  { packages := [pkg10], users := [user10], payments := [pay10], notifications := [] }

/-! ## Lemmas about document lookup and write-back -/

section FindUpdate

variable {α : Type}

/-- Writing back a document keyed like `v` does not change the key column. -/
theorem map_key_update (key : α → Nat) (v : α) (l : List α) :
    (l.map (fun x => if key x == key v then v else x)).map key = l.map key := by
  induction l with
  | nil => rfl
  | cons a t ih =>
    rw [List.map_cons, List.map_cons, List.map_cons, ih]
    by_cases h : key a = key v
    · rw [if_pos (by simp [h]), h]
    · rw [if_neg (by simp [h])]

/-- In a collection with no duplicate keys, searching for a member's key
finds that member. -/
theorem find_key_of_mem_nodup (key : α → Nat) {l : List α} {u : α}
    (hnd : (l.map key).Nodup) (hm : u ∈ l) :
    l.find? (fun x => key x == key u) = some u := by
  induction l with
  | nil => cases hm
  | cons a t ih =>
    rcases List.mem_cons.mp hm with rfl | hmt
    · exact List.find?_cons_of_pos _ (by simp)
    · have hne : key a ≠ key u := by
        intro he
        have hk : key u ∈ t.map key := List.mem_map_of_mem key hmt
        rw [← he] at hk
        exact (List.nodup_cons.mp hnd).1 hk
      rw [List.find?_cons_of_neg _ (by simp [hne])]
      exact ih (List.nodup_cons.mp hnd).2 hmt

/-- Writing back `v` over the slot previously found at key `t = key v`
makes a search for `t` find `v`. -/
theorem find_update_self (key : α → Nat) {l : List α} {t : Nat} {u0 : α} (v : α)
    (hf : l.find? (fun x => key x == t) = some u0) (hv : key v = t) :
    (l.map (fun x => if key x == key v then v else x)).find?
      (fun x => key x == t) = some v := by
  induction l with
  | nil => simp at hf
  | cons a l' ih =>
    by_cases h : key a = t
    · rw [List.map_cons, if_pos (by simp [h, hv])]
      exact List.find?_cons_of_pos _ (by simp [hv])
    · have hf' : l'.find? (fun x => key x == t) = some u0 := by
        rwa [List.find?_cons_of_neg _ (by simp [h])] at hf
      have hne : key a ≠ key v := fun he => h (he.trans hv)
      rw [List.map_cons, if_neg (by simp [hne])]
      rw [List.find?_cons_of_neg _ (by simp [h])]
      exact ih hf'

/-- Writing back `v` over the slot of the first document satisfying `p`
(in a collection with no duplicate keys) makes a search for `p` find `v`,
provided `v` keeps the key and satisfies `p`. -/
theorem find_update_of_agree (key : α → Nat) {p : α → Bool} {l : List α} {u0 : α}
    (v : α) (hnd : (l.map key).Nodup) (hf : l.find? p = some u0)
    (hkey : key v = key u0) (hp : p v = true) :
    (l.map (fun x => if key x == key v then v else x)).find? p = some v := by
  induction l with
  | nil => simp at hf
  | cons a l' ih =>
    by_cases h : p a = true
    · have ha : u0 = a := by
        rw [List.find?_cons_of_pos _ h] at hf
        exact (Option.some.injEq _ _ ▸ hf).symm
      subst ha
      rw [List.map_cons, if_pos (by simp [hkey])]
      exact List.find?_cons_of_pos _ hp
    · have hf' : l'.find? p = some u0 := by
        rwa [List.find?_cons_of_neg _ (by simp [h])] at hf
      have hu0 : u0 ∈ l' := List.mem_of_find?_eq_some hf'
      have hne : key a ≠ key v := by
        intro he
        have hk : key u0 ∈ l'.map key := List.mem_map_of_mem key hu0
        rw [← hkey, ← he] at hk
        exact (List.nodup_cons.mp hnd).1 hk
      rw [List.map_cons, if_neg (by simp [hne]), List.find?_cons_of_neg _ (by simp [h])]
      exact ih (List.nodup_cons.mp hnd).2 hf'

/-- Writing back a document that does not satisfy `p` (nor could any
document sharing its key) leaves a search for `p` unchanged. -/
theorem find_update_of_ne (key : α → Nat) {p : α → Bool} {l : List α} (v : α)
    (hpv : p v = false) (hall : ∀ x, key x = key v → p x = false) :
    (l.map (fun x => if key x == key v then v else x)).find? p = l.find? p := by
  induction l with
  | nil => rfl
  | cons a l' ih =>
    by_cases h : key a = key v
    · rw [List.map_cons, if_pos (by simp [h]),
        List.find?_cons_of_neg _ (by simp [hpv]),
        List.find?_cons_of_neg _ (by simp [hall a h])]
      exact ih
    · rw [List.map_cons, if_neg (by simp [h])]
      by_cases h2 : p a = true
      · rw [List.find?_cons_of_pos _ h2, List.find?_cons_of_pos _ h2]
      · rw [List.find?_cons_of_neg _ (by simp [h2]),
          List.find?_cons_of_neg _ (by simp [h2])]
        exact ih

end FindUpdate

/-! Collection-preservation facts for the write-back operations. -/

theorem updateUser_packages (db : DB) (v : UserRec) :
    (updateUser db v).packages = db.packages := rfl

theorem updateUser_payments (db : DB) (v : UserRec) :
    (updateUser db v).payments = db.payments := rfl

theorem updateUser_notifications (db : DB) (v : UserRec) :
    (updateUser db v).notifications = db.notifications := rfl

theorem updatePackage_users (db : DB) (v : MembershipPackage) :
    (updatePackage db v).users = db.users := rfl

theorem updatePackage_payments (db : DB) (v : MembershipPackage) :
    (updatePackage db v).payments = db.payments := rfl

theorem updatePackage_notifications (db : DB) (v : MembershipPackage) :
    (updatePackage db v).notifications = db.notifications := rfl

theorem updatePayment_users (db : DB) (v : PaymentRec) :
    (updatePayment db v).users = db.users := rfl

theorem updatePayment_packages (db : DB) (v : PaymentRec) :
    (updatePayment db v).packages = db.packages := rfl

theorem updatePayment_notifications (db : DB) (v : PaymentRec) :
    (updatePayment db v).notifications = db.notifications := rfl

theorem addNotification_users (db : DB) (n : NotificationRec) :
    (addNotification db n).users = db.users := rfl

theorem addNotification_packages (db : DB) (n : NotificationRec) :
    (addNotification db n).packages = db.packages := rfl

theorem addNotification_payments (db : DB) (n : NotificationRec) :
    (addNotification db n).payments = db.payments := rfl

/-- Lookups only read their collection. -/
theorem findUser_eq_of_users_eq {db1 db2 : DB} (h : db1.users = db2.users)
    (t : Nat) : findUser db1 t = findUser db2 t := by
  simp [findUser, h]

theorem findPackage_eq_of_packages_eq {db1 db2 : DB}
    (h : db1.packages = db2.packages) (t : Nat) :
    findPackage db1 t = findPackage db2 t := by
  simp [findPackage, h]

/-- A successful user lookup returns a record carrying the searched key. -/
theorem findUser_uid {db : DB} {t : Nat} {u : UserRec}
    (h : findUser db t = some u) : u.uid = t := by
  have := List.find?_some h
  simpa using this

theorem findPackage_pid {db : DB} {t : Nat} {p : MembershipPackage}
    (h : findPackage db t = some p) : p.pid = t := by
  have := List.find?_some h
  simpa using this

theorem findPaymentByOrder_orderId {db : DB} {oid : String} {p : PaymentRec}
    (h : findPaymentByOrder db oid = some p) : p.orderId = oid := by
  have := List.find?_some h
  simpa using this

theorem findUser_mem {db : DB} {t : Nat} {u : UserRec}
    (h : findUser db t = some u) : u ∈ db.users :=
  List.mem_of_find?_eq_some h

theorem findPackage_mem {db : DB} {t : Nat} {p : MembershipPackage}
    (h : findPackage db t = some p) : p ∈ db.packages :=
  List.mem_of_find?_eq_some h

theorem findUser_updateUser_self {db : DB} {t : Nat} {u0 : UserRec} (v : UserRec)
    (hf : findUser db t = some u0) (hv : v.uid = t) :
    findUser (updateUser db v) t = some v :=
  find_update_self UserRec.uid v hf hv

theorem findPackage_updatePackage_self {db : DB} {t : Nat}
    {p0 : MembershipPackage} (v : MembershipPackage)
    (hf : findPackage db t = some p0) (hv : v.pid = t) :
    findPackage (updatePackage db v) t = some v :=
  find_update_self MembershipPackage.pid v hf hv

theorem findUser_nodup_mem {db : DB} {u : UserRec}
    (hnd : (db.users.map UserRec.uid).Nodup) (hm : u ∈ db.users) :
    findUser db u.uid = some u :=
  find_key_of_mem_nodup UserRec.uid hnd hm

/-- A fold whose step preserves an observation preserves it end to end. -/
theorem foldl_preserve {β : Type} (g : DB → β) {f : DB → Nat → DB}
    (hf : ∀ db a, g (f db a) = g db) (L : List Nat) (db : DB) :
    g (L.foldl f db) = g db := by
  induction L generalizing db with
  | nil => rfl
  | cons a T ih => rw [List.foldl_cons, ih, hf]

/-! ## Lemmas about the sweeper passes -/

theorem remindOne_users (ef : Nat → Bool) (db : DB) (a : Nat) :
    (remindOne ef db a).users = db.users := by
  unfold remindOne
  cases findUser db a with
  | none => rfl
  | some u =>
    dsimp only
    split_ifs <;> rfl

theorem remindOne_packages (ef : Nat → Bool) (db : DB) (a : Nat) :
    (remindOne ef db a).packages = db.packages := by
  unfold remindOne
  cases findUser db a with
  | none => rfl
  | some u =>
    dsimp only
    split_ifs <;> rfl

theorem suspNotifCount_addNotification_other (db : DB) (n : NotificationRec)
    (uid : Nat) (h : n.title ≠ "Account Suspended") :
    suspNotifCount (addNotification db n) uid = suspNotifCount db uid := by
  simp [suspNotifCount, addNotification, List.filter_append, h]

theorem suspNotifCount_addNotification_self (db : DB) (n : NotificationRec)
    (uid : Nat) (hu : n.user = uid) (h : n.title = "Account Suspended") :
    suspNotifCount (addNotification db n) uid = suspNotifCount db uid + 1 := by
  simp [suspNotifCount, addNotification, List.filter_append, h, hu]

theorem remindOne_suspNotifCount (ef : Nat → Bool) (db : DB) (a uid : Nat) :
    suspNotifCount (remindOne ef db a) uid = suspNotifCount db uid := by
  unfold remindOne
  cases findUser db a with
  | none => rfl
  | some u =>
    dsimp only
    split_ifs with h1 h2
    · rfl
    · apply suspNotifCount_addNotification_other
      simp
    · rfl

theorem expireOne_packages (ef : Nat → Bool) (db : DB) (a : Nat) :
    (expireOne ef db a).packages = db.packages := by
  unfold expireOne
  cases findUser db a with
  | none => rfl
  | some u =>
    dsimp only
    split_ifs <;> rfl

theorem expireOne_findUser_ne (ef : Nat → Bool) (db : DB) (a t : Nat)
    (h : a ≠ t) : findUser (expireOne ef db a) t = findUser db t := by
  unfold expireOne
  cases hfa : findUser db a with
  | none => rfl
  | some u =>
    have huid : u.uid = a := findUser_uid hfa
    have key : findUser (updateUser db
        { u with membershipStatus := MemStatus.gracePeriod }) t = findUser db t := by
      apply find_update_of_ne UserRec.uid
      · simp [huid, h]
      · intro x hx
        simp [hx, huid, h]
    dsimp only
    split_ifs
    · exact key
    · rw [findUser_eq_of_users_eq (addNotification_users _ _) t]
      exact key
    · exact key

theorem expireOne_findUser_self (ef : Nat → Bool) (db : DB) (u : UserRec)
    (hf : findUser db u.uid = some u) :
    findUser (expireOne ef db u.uid) u.uid =
      some { u with membershipStatus := MemStatus.gracePeriod } := by
  unfold expireOne
  rw [hf]
  have key : findUser (updateUser db
      { u with membershipStatus := MemStatus.gracePeriod }) u.uid =
      some { u with membershipStatus := MemStatus.gracePeriod } :=
    findUser_updateUser_self _ hf rfl
  dsimp only
  split_ifs
  · exact key
  · rw [findUser_eq_of_users_eq (addNotification_users _ _) u.uid]
    exact key
  · exact key

theorem foldl_expireOne_not_mem (ef : Nat → Bool) (L : List Nat) (db : DB)
    (t : Nat) (h : t ∉ L) :
    findUser (L.foldl (expireOne ef) db) t = findUser db t := by
  induction L generalizing db with
  | nil => rfl
  | cons a T ih =>
    rw [List.foldl_cons, ih _ (fun hm => h (List.mem_cons_of_mem a hm))]
    exact expireOne_findUser_ne ef db a t (fun he => h (he ▸ List.mem_cons_self a T))

theorem foldl_expireOne_mem (ef : Nat → Bool) (L : List Nat) (db : DB)
    (u : UserRec) (hnd : L.Nodup) (hm : u.uid ∈ L)
    (hf : findUser db u.uid = some u) :
    findUser (L.foldl (expireOne ef) db) u.uid =
      some { u with membershipStatus := MemStatus.gracePeriod } := by
  induction L generalizing db with
  | nil => cases hm
  | cons a T ih =>
    rw [List.foldl_cons]
    rcases List.mem_cons.mp hm with he | hmT
    · have hT : u.uid ∉ T := he ▸ (List.nodup_cons.mp hnd).1
      rw [← he, foldl_expireOne_not_mem ef T _ _ hT]
      exact expireOne_findUser_self ef db u hf
    · have hne : a ≠ u.uid := by
        rintro rfl
        exact (List.nodup_cons.mp hnd).1 hmT
      refine ih _ (List.nodup_cons.mp hnd).2 hmT ?_
      rw [expireOne_findUser_ne ef db a u.uid hne]
      exact hf

theorem suspNotifCount_congr {db1 db2 : DB}
    (h : db1.notifications = db2.notifications) (t : Nat) :
    suspNotifCount db1 t = suspNotifCount db2 t := by
  simp [suspNotifCount, h]

/-- Claim C7: for every user in status active whose membershipEndDate is
before the start of today, one expiry sweep transitions that user to
grace_period and changes no other field of that user record, and the
packages collection (hence every currentMembers counter) is left entirely
unchanged by the pass. -/
theorem claim_C7_expiry_pass (ef : Nat → Bool) (today : Int) (db : DB)
    (u : UserRec) (d : Int)
    (hnd : (db.users.map UserRec.uid).Nodup)
    (hu : u ∈ db.users)
    (hact : u.membershipStatus = MemStatus.active)
    (hend : u.membershipEndDate = some d)
    (hlt : d < today) :
    findUser (expireMemberships ef today db) u.uid =
      some { u with membershipStatus := MemStatus.gracePeriod } ∧
    (expireMemberships ef today db).packages = db.packages := by
  unfold expireMemberships
  constructor
  · apply foldl_expireOne_mem
    · have hsub : List.Sublist ((db.users.filter (expiredMatch today)).map UserRec.uid)
          (db.users.map UserRec.uid) :=
        (List.filter_sublist _).map _
      exact hnd.sublist hsub
    · apply List.mem_map_of_mem
      exact List.mem_filter.mpr ⟨hu, by simp [expiredMatch, hact, hend, hlt]⟩
    · exact findUser_nodup_mem hnd hu
  · exact foldl_preserve DB.packages (expireOne_packages ef) _ db

/-- The suspension step of the grace-period sweep, computed for the user
it processes. -/
theorem suspendOne_effect (db : DB) (u : UserRec) (pid : Nat)
    (pkg : MembershipPackage)
    (hfu : findUser db u.uid = some u)
    (hpid : u.membershipPackage = some pid)
    (hfp : findPackage db pid = some pkg) :
    findUser (suspendOne db u.uid) u.uid =
      some { u with membershipStatus := MemStatus.expired } ∧
    findPackage (suspendOne db u.uid) pid =
      some { pkg with currentMembers := max 0 (pkg.currentMembers - 1) } ∧
    suspNotifCount (suspendOne db u.uid) u.uid =
      suspNotifCount db u.uid + (if u.prefInApp then 1 else 0) := by
  have hpkgpid : pkg.pid = pid := findPackage_pid hfp
  unfold suspendOne
  rw [hfu]
  dsimp only
  set u' := { u with membershipStatus := MemStatus.expired } with hu'
  rw [hpid]
  dsimp only [Option.bind]
  have hfp1 : findPackage (updateUser db u') pid = some pkg := by
    rw [findPackage_eq_of_packages_eq (updateUser_packages _ _)]
    exact hfp
  rw [hfp1]
  dsimp only
  have hfu1 : findUser (updatePackage (updateUser db u')
      { pkg with currentMembers := max 0 (pkg.currentMembers - 1) }) u.uid =
      some u' := by
    rw [findUser_eq_of_users_eq (updatePackage_users _ _)]
    exact findUser_updateUser_self _ hfu rfl
  have hfp2 : findPackage (updatePackage (updateUser db u')
      { pkg with currentMembers := max 0 (pkg.currentMembers - 1) }) pid =
      some { pkg with currentMembers := max 0 (pkg.currentMembers - 1) } :=
    findPackage_updatePackage_self _ hfp1 hpkgpid
  have hcnt : suspNotifCount (updatePackage (updateUser db u')
      { pkg with currentMembers := max 0 (pkg.currentMembers - 1) }) u.uid =
      suspNotifCount db u.uid := by
    rw [suspNotifCount_congr (updatePackage_notifications _ _),
      suspNotifCount_congr (updateUser_notifications _ _)]
  split_ifs with hpref
  · refine ⟨?_, ?_, ?_⟩
    · rw [findUser_eq_of_users_eq (addNotification_users _ _)]
      exact hfu1
    · rw [findPackage_eq_of_packages_eq (addNotification_packages _ _)]
      exact hfp2
    · rw [suspNotifCount_addNotification_self _ _ _ rfl rfl, hcnt]
  · refine ⟨hfu1, hfp2, ?_⟩
    rw [hcnt]
    omega

/-- Claim C6 (amended): for the user due for suspension (here the only
one matching the sweep query), one grace-period sweep transitions that
user to expired; when the package reference resolves, its currentMembers
becomes max 0 (currentMembers - 1) — a decrement by exactly 1 whenever at
least one member is counted; and a suspension notification is created
exactly when the user's in-app notification preference is enabled. -/
theorem claim_C6_grace_sweep (ef : Nat → Bool) (today : Int) (db : DB)
    (u : UserRec) (pid : Nat) (pkg : MembershipPackage)
    (hnd : (db.users.map UserRec.uid).Nodup)
    (honly : db.users.filter (suspendMatch today) = [u])
    (hpid : u.membershipPackage = some pid)
    (hfp : findPackage db pid = some pkg) :
    findUser (handleGracePeriodExpiry ef today db) u.uid =
      some { u with membershipStatus := MemStatus.expired } ∧
    findPackage (handleGracePeriodExpiry ef today db) pid =
      some { pkg with currentMembers := max 0 (pkg.currentMembers - 1) } ∧
    suspNotifCount (handleGracePeriodExpiry ef today db) u.uid =
      suspNotifCount db u.uid + (if u.prefInApp then 1 else 0) := by
  have hu : u ∈ db.users := by
    have hm : u ∈ db.users.filter (suspendMatch today) := by
      rw [honly]
      exact List.mem_singleton_self u
    exact List.mem_of_mem_filter hm
  unfold handleGracePeriodExpiry
  dsimp only
  set db1 := ((db.users.filter (graceReminderMatch today)).map UserRec.uid).foldl
    (remindOne ef) db with hdb1
  have h1u : db1.users = db.users := foldl_preserve DB.users (remindOne_users ef) _ db
  have h1p : db1.packages = db.packages :=
    foldl_preserve DB.packages (remindOne_packages ef) _ db
  have h1n : suspNotifCount db1 u.uid = suspNotifCount db u.uid :=
    foldl_preserve (fun d => suspNotifCount d u.uid)
      (fun d a => remindOne_suspNotifCount ef d a u.uid) _ db
  have hlist : (db1.users.filter (suspendMatch today)).map UserRec.uid = [u.uid] := by
    rw [h1u, honly]
    rfl
  rw [hlist, List.foldl_cons, List.foldl_nil]
  have hfu1 : findUser db1 u.uid = some u := by
    rw [findUser_eq_of_users_eq h1u]
    exact findUser_nodup_mem hnd hu
  have hfp1 : findPackage db1 pid = some pkg := by
    rw [findPackage_eq_of_packages_eq h1p]
    exact hfp
  obtain ⟨c1, c2, c3⟩ := suspendOne_effect db1 u pid pkg hfu1 hpid hfp1
  exact ⟨c1, c2, by rw [c3, h1n]⟩

/-! ## Capacity nonnegativity -/

theorem packagesNonneg_of_packages_eq {db1 db2 : DB}
    (h : db1.packages = db2.packages) (hn : packagesNonneg db2) :
    packagesNonneg db1 := by
  intro p hp
  exact hn p (h ▸ hp)

theorem packagesNonneg_updatePackage {db : DB} {v : MembershipPackage}
    (h : packagesNonneg db) (hv : 0 ≤ v.currentMembers) :
    packagesNonneg (updatePackage db v) := by
  intro p hp
  rcases List.mem_map.mp hp with ⟨q, hq, hfq⟩
  by_cases hb : q.pid = v.pid
  · rw [if_pos (by simp [hb])] at hfq
    exact hfq ▸ hv
  · rw [if_neg (by simp [hb])] at hfq
    exact hfq ▸ h q hq

theorem suspendOne_nonneg (db : DB) (a : Nat) (h : packagesNonneg db) :
    packagesNonneg (suspendOne db a) := by
  unfold suspendOne
  cases findUser db a with
  | none => exact h
  | some u =>
    dsimp only
    have hbase : packagesNonneg (updateUser db
        { u with membershipStatus := MemStatus.expired }) :=
      packagesNonneg_of_packages_eq (updateUser_packages _ _) h
    cases hopt : u.membershipPackage.bind (findPackage (updateUser db
        { u with membershipStatus := MemStatus.expired })) with
    | none =>
      dsimp only
      split_ifs
      · exact packagesNonneg_of_packages_eq (addNotification_packages _ _) hbase
      · exact hbase
    | some pkg =>
      dsimp only
      have hupd : packagesNonneg (updatePackage (updateUser db
          { u with membershipStatus := MemStatus.expired })
          { pkg with currentMembers := max 0 (pkg.currentMembers - 1) }) :=
        packagesNonneg_updatePackage hbase (le_max_left 0 _)
      split_ifs
      · exact packagesNonneg_of_packages_eq (addNotification_packages _ _) hupd
      · exact hupd

theorem foldl_nonneg {f : DB → Nat → DB}
    (hf : ∀ db a, packagesNonneg db → packagesNonneg (f db a))
    (L : List Nat) (db : DB) (h : packagesNonneg db) :
    packagesNonneg (L.foldl f db) := by
  induction L generalizing db with
  | nil => exact h
  | cons a T ih => exact ih _ (hf db a h)

theorem expireMemberships_nonneg (ef : Nat → Bool) (today : Int) (db : DB)
    (h : packagesNonneg db) :
    packagesNonneg (expireMemberships ef today db) := by
  unfold expireMemberships
  apply packagesNonneg_of_packages_eq _ h
  exact foldl_preserve DB.packages (expireOne_packages ef) _ db

theorem handleGracePeriodExpiry_nonneg (ef : Nat → Bool) (today : Int)
    (db : DB) (h : packagesNonneg db) :
    packagesNonneg (handleGracePeriodExpiry ef today db) := by
  unfold handleGracePeriodExpiry
  dsimp only
  apply foldl_nonneg (fun d a hd => suspendOne_nonneg d a hd)
  apply packagesNonneg_of_packages_eq _ h
  exact foldl_preserve DB.packages (remindOne_packages ef) _ db

theorem paymentNotify_nonneg (md5 : String → String) (sec : String) (now : Int)
    (am : Int → Nat → Int) (e r : Bool) (w : WebhookPayload) (db : DB)
    (h : packagesNonneg db) :
    packagesNonneg (paymentNotify md5 sec now am e r w db).2 := by
  unfold paymentNotify
  dsimp only
  split
  · exact h
  split
  · exact h
  split
  · -- success branch
    split
    · -- some user, some pkg
      next user pkg hequ heqp =>
        have hmem : pkg ∈ db.packages := by
          have hm := findPackage_mem heqp
          rwa [updatePayment_packages] at hm
        have hnn : (0 : Int) ≤ pkg.currentMembers := h pkg hmem
        split_ifs
        · apply packagesNonneg_updatePackage
          · exact packagesNonneg_of_packages_eq
              (by simp only [updatePayment_packages, updateUser_packages]) h
          · show (0 : Int) ≤ pkg.currentMembers + 1
            omega
        · apply packagesNonneg_of_packages_eq (addNotification_packages _ _)
          apply packagesNonneg_updatePackage
          · exact packagesNonneg_of_packages_eq
              (by simp only [updatePayment_packages, updateUser_packages]) h
          · show (0 : Int) ≤ pkg.currentMembers + 1
            omega
    · -- user or package missing
      exact packagesNonneg_of_packages_eq (updatePayment_packages _ _) h
  split
  · -- pending
    exact packagesNonneg_of_packages_eq (updatePayment_packages _ _) h
  split
  · -- cancelled
    exact packagesNonneg_of_packages_eq (updatePayment_packages _ _) h
  split
  · -- failed
    exact packagesNonneg_of_packages_eq
      (by simp only [addNotification_packages, updatePayment_packages]) h
  split
  · -- chargeback
    apply packagesNonneg_of_packages_eq (addNotification_packages _ _)
    split
    · -- some user
      next user hequ =>
        split_ifs
        · -- user active
          split
          · -- some pkg
            next pkg heqp =>
              have hmem : pkg ∈ db.packages := by
                have hm := findPackage_mem heqp
                rwa [updateUser_packages, updatePayment_packages] at hm
              split_ifs with hpos
              · apply packagesNonneg_updatePackage
                · exact packagesNonneg_of_packages_eq
                    (by simp only [updateUser_packages, updatePayment_packages]) h
                · show (0 : Int) ≤ pkg.currentMembers - 1
                  omega
              · exact packagesNonneg_of_packages_eq
                  (by simp only [updateUser_packages, updatePayment_packages]) h
          · -- package missing
            exact packagesNonneg_of_packages_eq
              (by simp only [updateUser_packages, updatePayment_packages]) h
        · -- user not active
          exact packagesNonneg_of_packages_eq (updatePayment_packages _ _) h
    · -- user missing
      exact packagesNonneg_of_packages_eq (updatePayment_packages _ _) h
  -- unknown status code
  exact h

theorem initiatePayment_nonneg (now : Int) (md5 : String → String)
    (mid sec : String) (ru pk np : Nat) (db : DB) (h : packagesNonneg db) :
    packagesNonneg (initiatePayment now md5 mid sec ru pk np db).2 := by
  unfold initiatePayment
  dsimp only
  split
  · exact h
  split
  · exact h
  split
  · exact h
  split
  · exact h
  split
  · exact h
  split
  · exact h
  · exact h

theorem manualCompletePayment_nonneg (now : Int) (am : Int → Nat → Int)
    (ru : Nat) (oid : String) (db : DB) (h : packagesNonneg db) :
    packagesNonneg (manualCompletePayment now am ru oid db).2 := by
  unfold manualCompletePayment
  dsimp only
  split
  · exact h
  split
  · exact h
  split
  · exact h
  split
  · next user pkg hequ heqp =>
      have hmem : pkg ∈ db.packages := by
        have hm := findPackage_mem heqp
        rwa [updatePayment_packages] at hm
      have hnn : (0 : Int) ≤ pkg.currentMembers := h pkg hmem
      apply packagesNonneg_of_packages_eq (addNotification_packages _ _)
      apply packagesNonneg_updatePackage
      · exact packagesNonneg_of_packages_eq
          (by simp only [updatePayment_packages, updateUser_packages]) h
      · show (0 : Int) ≤ pkg.currentMembers + 1
        omega
  · exact packagesNonneg_of_packages_eq (updatePayment_packages _ _) h

/-! ## Payment-collection lookup lemmas -/

theorem findPaymentByOrder_eq_of_payments_eq {db1 db2 : DB}
    (h : db1.payments = db2.payments) (oid : String) :
    findPaymentByOrder db1 oid = findPaymentByOrder db2 oid := by
  simp [findPaymentByOrder, h]

theorem findPayment_update_of_agree {db : DB} {oid : String} {p0 : PaymentRec}
    (v : PaymentRec) (hnd : (db.payments.map PaymentRec.payId).Nodup)
    (hf : findPaymentByOrder db oid = some p0)
    (hkey : v.payId = p0.payId) (hp : v.orderId = oid) :
    findPaymentByOrder (updatePayment db v) oid = some v :=
  find_update_of_agree PaymentRec.payId v hnd hf hkey (by simp [hp])

theorem updatePayment_payId_map (db : DB) (v : PaymentRec) :
    (updatePayment db v).payments.map PaymentRec.payId =
      db.payments.map PaymentRec.payId :=
  map_key_update PaymentRec.payId v db.payments

/-! ## The claims -/

/-- Claim C1 (code bug at the failing input): the success branch has no
already-success guard, so an identical redelivery of a valid status-2
webhook is not a safe no-op: the first delivery leaves the payment at
success, and the second is acknowledged OK, increments the package member
count a second time (0 to 2 across the two deliveries) and appends the
payment reference to the user's history a second time. -/
theorem claim_C1_success_redelivery_not_idempotent :
    (findPaymentByOrder (paymentNotify md5c "S" 0 amc true true w2 db0).2 "O1").map
      PaymentRec.status = some PayStatus.success ∧
    (paymentNotify md5c "S" 0 amc true true w2
      (paymentNotify md5c "S" 0 amc true true w2 db0).2).1 = NotifyResult.ok ∧
    (findPackage (paymentNotify md5c "S" 0 amc true true w2
      (paymentNotify md5c "S" 0 amc true true w2 db0).2).2 1).map
      MembershipPackage.currentMembers = some 2 ∧
    (findUser (paymentNotify md5c "S" 0 amc true true w2
      (paymentNotify md5c "S" 0 amc true true w2 db0).2).2 1).map
      UserRec.paymentHistory = some [5, 5] := by
  decide

/-- Claim C2 (code bug at the failing input): the payment is marked success
before the user lookup, so a valid status-2 webhook whose custom_1 user id
resolves to no user flips the Payment to success, answers OK, and leaves
every user record untouched — the success branch is not applied as an
atomic unit. -/
theorem claim_C2_success_not_atomic :
    (paymentNotify md5c "S" 0 amc true true w2m db0).1 = NotifyResult.ok ∧
    (findPaymentByOrder (paymentNotify md5c "S" 0 amc true true w2m db0).2 "O1").map
      PaymentRec.status = some PayStatus.success ∧
    (paymentNotify md5c "S" 0 amc true true w2m db0).2.users = db0.users := by
  decide

/-- Claim C3: whenever the recomputed two-stage hash differs from the
payload signature, the webhook handler answers the failure response and the
whole state — payments, users, packages and notifications — is returned
unchanged, before any lookup or write. -/
theorem claim_C3_invalid_signature_rejected (md5 : String → String) (sec : String)
    (now : Int) (am : Int → Nat → Int) (e r : Bool) (w : WebhookPayload) (db : DB)
    (h : notifyLocalHash md5 w.merchantId w.orderId w.payhereAmount
      w.payhereCurrency w.statusCode sec ≠ w.md5sig) :
    paymentNotify md5 sec now am e r w db = (NotifyResult.invalidHash, db) := by
  unfold paymentNotify
  rw [if_pos h]

theorem claim_C3_witness :
    notifyLocalHash md5c w2bad.merchantId w2bad.orderId w2bad.payhereAmount
      w2bad.payhereCurrency w2bad.statusCode "S" ≠ w2bad.md5sig ∧
    paymentNotify md5c "S" 0 amc true true w2bad db0 =
      (NotifyResult.invalidHash, db0) :=
  ⟨by decide,
    claim_C3_invalid_signature_rejected md5c "S" 0 amc true true w2bad db0 (by decide)⟩

/-- Claim C4 (code bug at the failing input): the activation email is
awaited with no local catch, so when its promise rejects the handler
answers the 500 error response (inviting a gateway retry) even though the
payment was already flipped to success — and the success notification is
skipped.  The reconciliation is therefore not insulated from the email
side effect. -/
theorem claim_C4_activation_email_awaited :
    (paymentNotify md5c "S" 0 amc false true w2 db0).1 = NotifyResult.serverError ∧
    (findPaymentByOrder (paymentNotify md5c "S" 0 amc false true w2 db0).2 "O1").map
      PaymentRec.status = some PayStatus.success ∧
    (paymentNotify md5c "S" 0 amc false true w2 db0).2.notifications = [] := by
  decide

/-- Claim C5 (counterexample): a package with maxMembers = 0 and
currentMembers = 0 is at capacity per the claim, yet initiation is not
rejected with the capacity error — JavaScript truthiness skips the check
for 0 — and a pending Payment row is created. -/
theorem claim_C5_counterexample :
    pkg0.maxMembers = some 0 ∧ pkg0.currentMembers = 0 ∧ pkg0.isActive = true ∧
    db5.payments.length = 0 ∧
    (initiatePayment 0 md5c "M" "S" 1 1 7 db5).1 ≠ InitResult.capacityReached ∧
    (initiatePayment 0 md5c "M" "S" 1 1 7 db5).2.payments.length = 1 := by
  decide

/-- Claim C5 (amended): for every active package with maxMembers = N where
N is at least 1 and currentMembers at least N, initiation is rejected with
the capacity error and the state is returned unchanged — no Payment row is
created; the N = 0 case is excluded because the source's truthiness check
treats maxMembers = 0 as no limit. -/
theorem claim_C5_amended_capacity_reject (now : Int) (md5 : String → String)
    (mid sec : String) (ru np : Nat) (db : DB) (pk : Nat)
    (pkg : MembershipPackage) (n : Nat)
    (hp : findPackage db pk = some pkg)
    (hact : pkg.isActive = true)
    (hmax : pkg.maxMembers = some n)
    (hn : 1 ≤ n)
    (hfull : (n : Int) ≤ pkg.currentMembers) :
    initiatePayment now md5 mid sec ru pk np db = (InitResult.capacityReached, db) := by
  unfold initiatePayment
  rw [hp]
  dsimp only
  rw [if_neg (by simp [hact])]
  rw [if_pos ⟨by simp [jsTruthyOptNat, hmax]; omega, by rw [hmax]; simpa using hfull⟩]

theorem claim_C5_witness :
    findPackage db5w 1 = some pkg5w ∧
    initiatePayment 0 md5c "M" "S" 1 1 7 db5w = (InitResult.capacityReached, db5w) :=
  ⟨by decide,
    claim_C5_amended_capacity_reject 0 md5c "M" "S" 1 7 db5w 1 pkg5w 1
      (by decide) rfl rfl (by decide) (by decide)⟩

/-- Claim C6 (counterexample): a grace-period user past the deadline whose
in-app notification preference is off and whose package already counts 0
members is transitioned to expired, but the member count is not
decremented by exactly 1 (it is floored at 0) and no suspension
notification is created. -/
theorem claim_C6_counterexample :
    suspendMatch 0 user6 = true ∧
    (findUser (handleGracePeriodExpiry ef0 0 db6) 1).map UserRec.membershipStatus =
      some MemStatus.expired ∧
    (findPackage (handleGracePeriodExpiry ef0 0 db6) 1).map
      MembershipPackage.currentMembers = some 0 ∧
    ¬ ((findPackage (handleGracePeriodExpiry ef0 0 db6) 1).map
      MembershipPackage.currentMembers = some (pkg6.currentMembers - 1)) ∧
    (handleGracePeriodExpiry ef0 0 db6).notifications = [] := by
  decide

theorem claim_C6_witness :
    user6b.prefInApp = true ∧ pkg6b.currentMembers = 5 ∧
    (findUser (handleGracePeriodExpiry ef0 0 db6b) user6b.uid =
      some { user6b with membershipStatus := MemStatus.expired } ∧
     findPackage (handleGracePeriodExpiry ef0 0 db6b) 1 =
      some { pkg6b with currentMembers := max 0 (pkg6b.currentMembers - 1) } ∧
     suspNotifCount (handleGracePeriodExpiry ef0 0 db6b) user6b.uid =
      suspNotifCount db6b user6b.uid + (if user6b.prefInApp then 1 else 0)) :=
  ⟨rfl, rfl,
    claim_C6_grace_sweep ef0 0 db6b user6b 1 pkg6b (by decide) (by decide) rfl (by decide)⟩

theorem claim_C7_witness :
    user7.membershipStatus = MemStatus.active ∧
    (findUser (expireMemberships ef0 0 db7) user7.uid =
      some { user7 with membershipStatus := MemStatus.gracePeriod } ∧
     (expireMemberships ef0 0 db7).packages = db7.packages) :=
  ⟨rfl,
    claim_C7_expiry_pass ef0 0 db7 user7 (-1) (by decide) (by decide) rfl rfl (by decide)⟩

/-- Claim C8: starting from any state in which every package's
currentMembers is nonnegative, every state-mutating operation — the
webhook reconciler in all its branches (success increment, chargeback
decrement), the two sweeps (suspension decrement), manual completion and
initiation — preserves that nonnegativity; in particular a second delivery
of any webhook (for example a repeated chargeback) still leaves every
counter nonnegative. -/
theorem claim_C8_capacity_nonneg (db : DB) (h : packagesNonneg db) :
    (∀ (md5 : String → String) (sec : String) (now : Int)
      (am : Int → Nat → Int) (e r : Bool) (w : WebhookPayload),
      packagesNonneg (paymentNotify md5 sec now am e r w db).2) ∧
    (∀ (md5 : String → String) (sec : String) (now : Int)
      (am : Int → Nat → Int) (e r : Bool) (w w2 : WebhookPayload),
      packagesNonneg (paymentNotify md5 sec now am e r w2
        (paymentNotify md5 sec now am e r w db).2).2) ∧
    (∀ (ef : Nat → Bool) (today : Int),
      packagesNonneg (handleGracePeriodExpiry ef today db)) ∧
    (∀ (ef : Nat → Bool) (today : Int),
      packagesNonneg (expireMemberships ef today db)) ∧
    (∀ (now : Int) (am : Int → Nat → Int) (ru : Nat) (oid : String),
      packagesNonneg (manualCompletePayment now am ru oid db).2) ∧
    (∀ (now : Int) (md5 : String → String) (mid sec : String) (ru pk np : Nat),
      packagesNonneg (initiatePayment now md5 mid sec ru pk np db).2) :=
  ⟨fun md5 sec now am e r w => paymentNotify_nonneg md5 sec now am e r w db h,
   fun md5 sec now am e r w w2 => paymentNotify_nonneg md5 sec now am e r w2 _
     (paymentNotify_nonneg md5 sec now am e r w db h),
   fun ef today => handleGracePeriodExpiry_nonneg ef today db h,
   fun ef today => expireMemberships_nonneg ef today db h,
   fun now am ru oid => manualCompletePayment_nonneg now am ru oid db h,
   fun now md5 mid sec ru pk np => initiatePayment_nonneg now md5 mid sec ru pk np db h⟩

theorem claim_C8_witness :
    packagesNonneg db0 ∧
    packagesNonneg (handleGracePeriodExpiry ef0 0 db0) := by
  have h0 : packagesNonneg db0 := by
    intro p hp
    have hpa : p = pkgA := List.mem_singleton.mp hp
    rw [hpa]
    decide
  exact ⟨h0, (claim_C8_capacity_nonneg db0 h0).2.2.1 ef0 0⟩

/-- Helper for claim C9: inverting a successful initiation shows the
persisted pending payment carries the discounted amount and the gateway
form amount is that amount formatted to two decimals. -/
theorem initiate_ok_inversion (now : Int) (md5 : String → String)
    (mid sec : String) (ru pk np : Nat) (db db2 : DB) (pay : PaymentRec)
    (fa hs : String)
    (hok : initiatePayment now md5 mid sec ru pk np db =
      (InitResult.ok pay fa hs, db2)) :
    ∃ pkg, findPackage db pk = some pkg ∧
      pay.amount = calculateAmount pkg.price pkg.discount ∧
      fa = toFixed2 pay.amount ∧
      pay.status = PayStatus.pending ∧
      pay ∈ db2.payments := by
  unfold initiatePayment at hok
  cases hp : findPackage db pk with
  | none =>
    rw [hp] at hok
    exact absurd hok (by simp)
  | some pkg =>
    rw [hp] at hok
    dsimp only at hok
    split at hok
    · exact absurd hok (by simp)
    split at hok
    · exact absurd hok (by simp)
    split at hok
    · exact absurd hok (by simp)
    split at hok
    · exact absurd hok (by simp)
    split at hok
    · exact absurd hok (by simp)
    simp only [Prod.mk.injEq, InitResult.ok.injEq] at hok
    obtain ⟨⟨hpay, hfa, hhs⟩, hdb2⟩ := hok
    refine ⟨pkg, rfl, ?_, ?_, ?_, ?_⟩
    · rw [← hpay]
    · rw [← hfa, ← hpay]
    · rw [← hpay]
    · rw [← hdb2, ← hpay]
      exact List.mem_append_right _ (List.mem_singleton_self _)

/-- Claim C9: for a discount d with 0 ≤ d ≤ 100 the computed amount is
price − price·d/100 (equal to the price at d = 0); price 9000 with
discount 11 gives 8010, formatted "8010.00"; and every successful
initiation persists exactly that amount on the pending Payment row and
puts its two-decimal formatting in the gateway form parameters. -/
theorem claim_C9_amount (p d : ℚ) (h0 : 0 ≤ d) (h100 : d ≤ 100) :
    calculateAmount p d = p - p * d / 100 ∧
    calculateAmount 9000 11 = 8010 ∧
    toFixed2 (calculateAmount 9000 11) = "8010.00" ∧
    (∀ (now : Int) (md5 : String → String) (mid sec : String) (ru pk np : Nat)
      (db db2 : DB) (pay : PaymentRec) (fa hs : String),
      initiatePayment now md5 mid sec ru pk np db = (InitResult.ok pay fa hs, db2) →
      ∃ pkg, findPackage db pk = some pkg ∧
        pay.amount = calculateAmount pkg.price pkg.discount ∧
        fa = toFixed2 pay.amount ∧
        pay.status = PayStatus.pending ∧
        pay ∈ db2.payments) := by
  refine ⟨?_, ?_, ?_, ?_⟩
  · unfold calculateAmount
    by_cases hd : 0 < d
    · rw [if_pos hd]
    · have hz : d = 0 := le_antisymm (not_lt.mp hd) h0
      rw [if_neg hd, hz]
      ring
  · norm_num [calculateAmount]
  · have hc : calculateAmount 9000 11 = 8010 := by norm_num [calculateAmount]
    have hr : (round ((8010 : ℚ) * 100) : ℤ) = 801000 := by norm_num
    rw [hc]
    simp only [toFixed2, hr]
    decide
  · intro now md5 mid sec ru pk np db db2 pay fa hs hok
    exact initiate_ok_inversion now md5 mid sec ru pk np db db2 pay fa hs hok

theorem claim_C9_witness :
    (0 : ℚ) ≤ 11 ∧ (11 : ℚ) ≤ 100 ∧
    calculateAmount 9000 11 = 9000 - 9000 * 11 / 100 :=
  ⟨by norm_num, by norm_num, (claim_C9_amount 9000 11 (by norm_num) (by norm_num)).1⟩

/-- Claim C10: the fourth state-mutating entry point.  Its type already
shows there is no gateway signature input; its hypotheses require only
ownership and a non-success status — no capacity check and no
existing-active-membership check — and it marks the payment success,
activates the owner's membership with dates from now, and increments the
package member count. -/
theorem claim_C10_manual_complete (now : Int) (am : Int → Nat → Int) (db : DB)
    (oid : String) (pay : PaymentRec) (user : UserRec) (pkg : MembershipPackage)
    (hnd : (db.payments.map PaymentRec.payId).Nodup)
    (hpay : findPaymentByOrder db oid = some pay)
    (hst : pay.status ≠ PayStatus.success)
    (hu : findUser db pay.user = some user)
    (hpk : findPackage db pay.package = some pkg) :
    (manualCompletePayment now am pay.user oid db).1 = ManualResult.completed ∧
    (findPaymentByOrder (manualCompletePayment now am pay.user oid db).2 oid).map
      PaymentRec.status = some PayStatus.success ∧
    findUser (manualCompletePayment now am pay.user oid db).2 user.uid =
      some (activateUser user pkg pay.payId now am) ∧
    findPackage (manualCompletePayment now am pay.user oid db).2 pkg.pid =
      some { pkg with currentMembers := pkg.currentMembers + 1 } := by
  have huid : user.uid = pay.user := findUser_uid hu
  have hoid : pay.orderId = oid := findPaymentByOrder_orderId hpay
  have hpid : pkg.pid = pay.package := findPackage_pid hpk
  unfold manualCompletePayment
  rw [hpay]
  dsimp only
  rw [if_neg (by simp), if_neg (by simp [hst])]
  set pay1 := pay.markAsSuccess ⟨"TEST_" ++ toString now, "2", "Test User",
    "xxxx-xxxx-xxxx-1234", some "Manual completion for testing"⟩ with hpay1def
  have hu1 : findUser (updatePayment db pay1) pay.user = some user := by
    rw [findUser_eq_of_users_eq (updatePayment_users _ _)]
    exact hu
  have hpk1 : findPackage (updatePayment db pay1) pay.package = some pkg := by
    rw [findPackage_eq_of_packages_eq (updatePayment_packages _ _)]
    exact hpk
  rw [hu1, hpk1]
  dsimp only
  refine ⟨rfl, ?_, ?_, ?_⟩
  · rw [findPaymentByOrder_eq_of_payments_eq (addNotification_payments _ _),
      findPaymentByOrder_eq_of_payments_eq (updatePackage_payments _ _)]
    have hnd1 : (((updateUser (updatePayment db pay1)
        (activateUser user pkg pay1.payId now am)).payments).map
        PaymentRec.payId).Nodup := by
      rw [updateUser_payments, updatePayment_payId_map]
      exact hnd
    have hf1 : findPaymentByOrder (updateUser (updatePayment db pay1)
        (activateUser user pkg pay1.payId now am)) oid = some pay1 := by
      rw [findPaymentByOrder_eq_of_payments_eq (updateUser_payments _ _)]
      exact findPayment_update_of_agree pay1 hnd hpay rfl hoid
    rw [findPayment_update_of_agree
      { pay1 with
        membershipStartDate := (activateUser user pkg pay1.payId now am).membershipStartDate
        membershipEndDate := (activateUser user pkg pay1.payId now am).membershipEndDate }
      hnd1 hf1 rfl hoid]
    rfl
  · rw [findUser_eq_of_users_eq (addNotification_users _ _),
      findUser_eq_of_users_eq (updatePackage_users _ _),
      findUser_eq_of_users_eq (updatePayment_users _ _)]
    have hfu : findUser (updatePayment db pay1) user.uid = some user := by
      rw [huid]
      exact hu1
    rw [findUser_updateUser_self (activateUser user pkg pay1.payId now am) hfu rfl]
    rfl
  · rw [findPackage_eq_of_packages_eq (addNotification_packages _ _)]
    have hfp2 : findPackage (updatePayment (updateUser (updatePayment db pay1)
        (activateUser user pkg pay1.payId now am))
        { pay1 with
          membershipStartDate := (activateUser user pkg pay1.payId now am).membershipStartDate
          membershipEndDate := (activateUser user pkg pay1.payId now am).membershipEndDate })
        pkg.pid = some pkg := by
      rw [findPackage_eq_of_packages_eq (updatePayment_packages _ _),
        findPackage_eq_of_packages_eq (updateUser_packages _ _),
        findPackage_eq_of_packages_eq (updatePayment_packages _ _), hpid]
      exact hpk
    exact findPackage_updatePackage_self _ hfp2 rfl

theorem claim_C10_witness :
    pkg10.maxMembers = some 1 ∧ pkg10.currentMembers = 1 ∧
    user10.membershipStatus = MemStatus.active ∧
    ((manualCompletePayment 0 amc pay10.user "O10" db10).1 = ManualResult.completed ∧
     (findPaymentByOrder (manualCompletePayment 0 amc pay10.user "O10" db10).2 "O10").map
        PaymentRec.status = some PayStatus.success ∧
     findUser (manualCompletePayment 0 amc pay10.user "O10" db10).2 user10.uid =
        some (activateUser user10 pkg10 pay10.payId 0 amc) ∧
     findPackage (manualCompletePayment 0 amc pay10.user "O10" db10).2 pkg10.pid =
        some { pkg10 with currentMembers := pkg10.currentMembers + 1 }) :=
  ⟨rfl, rfl, rfl,
    claim_C10_manual_complete 0 amc db10 "O10" pay10 user10 pkg10
      (by decide) (by decide) (by decide) (by decide) (by decide)⟩

end Back
